import Mathlib

/-!
Verification of the competitive-intelligence pipeline specification against
the repository code. The frontend components (FeatureMatrix.tsx,
PricingTable.tsx, AnalysisForm) are embedded directly from their source;
the backend core (planner, registry, orchestrator) is not part of the
repository snapshot and is modelled from the specification where a claim
requires it.
-/

namespace CompetIntel

/-- Substring containment on strings, the semantics of the JavaScript
String.prototype.includes used by hasFeature in FeatureMatrix.tsx. -/
def strIncludes (s pat : String) : Bool :=
  decide (pat.data <:+: s.data)

/-- Lowercasing of a string, character by character: the semantics of the
JavaScript toLowerCase calls in hasFeature (stated over the character data so
that it evaluates by kernel reduction). -/
def toLowerStr (s : String) : String :=
  String.mk (s.data.map Char.toLower)

/-- Removal of leading and trailing whitespace: the semantics of
String.prototype.trim in AnalysisForm and of the trimming the specification
requires on the target descriptor (stated over the character data so that it
evaluates by kernel reduction). -/
def trimStr (s : String) : String :=
  String.mk
    (((s.data.dropWhile Char.isWhitespace).reverse.dropWhile
        Char.isWhitespace).reverse)

/-- A row of the feature data supplied to the feature matrix: the competitor
name and its feature text (interface FeatureData in FeatureMatrix.tsx). -/
structure FeatureData where
  name : String
  features : String
deriving Repr, DecidableEq

/-- The fixed feature vocabulary of the rendered feature matrix
(featureKeywords in FeatureMatrix.tsx). -/
def featureKeywords : List String :=
  ["payment processing", "api", "mobile app", "web dashboard",
   "analytics", "fraud protection", "multi-currency", "instant payments",
   "recurring billing", "subscription", "marketplace", "e-commerce",
   "banking", "cryptocurrency", "stock trading", "peer-to-peer",
   "debit cards", "credit cards", "digital wallet", "remittance",
   "compliance", "kyc", "aml", "risk management", "settlement",
   "online payments", "point of sale", "unified commerce", "card issuing"]

/-- hasFeature from FeatureMatrix.tsx: look up the competitor row by name; a
missing row, an empty features string, or the literal text N/A yields false;
otherwise test whether the lowercased keyword occurs in the lowercased
feature text. -/
def hasFeature (features : List FeatureData) (competitorName : String)
    (feature : String) : Bool :=
  match features.find? (fun f => f.name == competitorName) with
  | none => false
  | some competitorData =>
    if competitorData.features = "" || competitorData.features = "N/A" then
      false
    else
      strIncludes (toLowerStr competitorData.features) (toLowerStr feature)

/-- The three icons the matrix components can render: Check, Minus, X. -/
inductive Icon
  | check
  | minus
  | x
deriving Repr, DecidableEq

/-- getFeatureIcon of the FeatureMatrix variant that computes cells from
competitor data: Check for true, X otherwise (a Boolean input). -/
def getFeatureIconB (value : Bool) : Icon :=
  if value then Icon.check else Icon.x

/-- The cell value type of the other FeatureMatrix variant, which renders a
value it is handed: boolean, the text partial, or null. -/
inductive TriVal
  | boolVal (b : Bool)
  | partialVal
  | nullVal
deriving Repr, DecidableEq

/-- getFeatureIcon of the tri-state rendering variant of FeatureMatrix.tsx:
Check for true, Minus for the text partial, X otherwise. -/
def getFeatureIconTri : TriVal → Icon
  | TriVal.boolVal true => Icon.check
  | TriVal.partialVal => Icon.minus
  | _ => Icon.x

/-- One computed cell of the rendered feature matrix: the icon obtained from
hasFeature (FeatureMatrix.tsx render loop). -/
def cellIcon (features : List FeatureData) (competitorName : String)
    (feature : String) : Icon :=
  getFeatureIconB (hasFeature features competitorName feature)

/-- The full rendered matrix of the computing FeatureMatrix variant: one row
per vocabulary keyword, one cell per competitor. -/
def buildFeatureMatrix (competitors : List String)
    (features : List FeatureData) : List (String × List Icon) :=
  featureKeywords.map (fun kw =>
    (kw, competitors.map (fun c => cellIcon features c kw)))

/-- A single pricing tier of one competitor (PricingTable.tsx). -/
structure Tier where
  name : String
  price : String
  features : List String
  isPopular : Bool
deriving Repr, DecidableEq

/-- The pricing data of one competitor: its name and tiers
(interface PricingTier in PricingTable.tsx). -/
structure PricingTier where
  competitor : String
  tiers : List Tier
deriving Repr, DecidableEq

/-- The feature lines rendered for one pricing tier (PricingTable.tsx): the
first three features as bullet lines, then one more-features line exactly
when more than three features exist. -/
def tierFeatureLines (tier : Tier) : List String :=
  (tier.features.take 3).map (fun f => "• " ++ f) ++
    (if 3 < tier.features.length then
      ["+" ++ toString (tier.features.length - 3) ++ " more features"]
    else [])

/-- The rendered pricing table (PricingTable.tsx): one block per competitor,
listing per tier the plan name, price and rendered feature lines. -/
def renderPricingTable (pricingData : List PricingTier) :
    List (String × List (String × String × List String)) :=
  pricingData.map (fun c =>
    (c.competitor, c.tiers.map (fun t => (t.name, t.price, tierFeatureLines t))))

/-- The disabled condition of the Start Analysis submit button in
AnalysisForm: the company name trims to empty, or a run is in flight. -/
def startAnalysisDisabled (companyName : String) (isLoading : Bool) : Bool :=
  (trimStr companyName == "") || isLoading

/-- Modelled from the spec: the repository snapshot holds no backend source,
so the §4.4 company-name normalization (casing, punctuation, whitespace) is
modelled here: lowercase every character, drop everything that is neither
alphanumeric nor a space, collapse interior space runs and trim. Helper that
collapses runs of spaces and drops trailing ones. -/
def collapseSpaces : List Char → List Char
  | [] => []
  | c :: cs =>
    match collapseSpaces cs with
    | [] => if c = ' ' then [] else [c]
    | d :: ds =>
      if c = ' ' then (if d = ' ' then d :: ds else c :: d :: ds)
      else c :: d :: ds

/-- Modelled from the spec: the §4.4 identity key of a company name — the
backend Registry is absent from the snapshot. Lowercased, punctuation
removed, whitespace collapsed. -/
def normalizeKey (s : String) : String :=
  let lowered := s.data.map Char.toLower
  let cleaned := lowered.filter (fun c => c.isAlphanum || c = ' ')
  String.mk ((collapseSpaces cleaned).dropWhile (fun c => c = ' '))

/-- Modelled from the spec: the §4.4 length-ratio threshold of 0.6, stated in
integers: shorter/longer ≥ 3/5. -/
def ratioOK (m n : Nat) : Bool :=
  3 * max m n ≤ 5 * min m n

/-- Modelled from the spec: §4.4 identity resolution on two already-normalized
keys — equal, or one a substring of the other with length ratio at least
0.6. The Registry source is absent from the snapshot. -/
def keysClash (ka kb : String) : Bool :=
  ka == kb ||
    ((strIncludes ka kb || strIncludes kb ka) && ratioOK ka.length kb.length)

/-- Modelled from the spec: the §3 fixed field vocabulary of a
CompetitorFact. -/
inductive FactField
  | name
  | description
  | pricing_model
  | pricing_tiers
  | key_features
  | market_position
  | target_audience
  | revenue
  | market_share
deriving Repr, DecidableEq

/-- Modelled from the spec: a §3 CompetitorFact — field, value, confidence in
the rationals, provenance, and the observation instant used by the §4.4
recency tie-break. The Extraction Normalizer source is absent from the
snapshot. -/
structure CompetitorFact where
  factField : FactField
  value : String
  confidence : Rat
  provenance : String
  observedAt : Nat
deriving Repr, DecidableEq

/-- Modelled from the spec: a §3 CompetitorRecord — normalized identity key
and the retained facts in first-seen order. Re-observing an identical fact
adds nothing, which is the only reading under which §4.4 retention for
provenance audit and §8 upsert idempotence hold together. -/
structure CompetitorRecord where
  identity : String
  facts : List CompetitorFact
deriving Repr, DecidableEq

/-- Modelled from the spec: §4.4 merge policy order — a fact beats the
current winner when its confidence is higher, or on a confidence tie when it
was observed at least as recently. -/
def beats (a b : CompetitorFact) : Bool :=
  b.confidence < a.confidence ||
    (a.confidence == b.confidence && b.observedAt ≤ a.observedAt)

/-- Modelled from the spec: the §4.4 winning fact of a record for one field —
highest confidence, ties broken by recency. -/
def winner (r : CompetitorRecord) (f : FactField) : Option CompetitorFact :=
  (r.facts.filter (fun x => x.factField == f)).foldl
    (fun acc x =>
      match acc with
      | none => some x
      | some w => if beats x w then some x else some w)
    none

/-- Modelled from the spec: the §4.4 Competitor Registry — records in
first-identified order. -/
structure Registry where
  records : List CompetitorRecord
deriving Repr, DecidableEq

/-- Modelled from the spec: the empty Registry a §9 run starts from. -/
def emptyRegistry : Registry := ⟨[]⟩

/-- Modelled from the spec: retention of a fact on a record (§4.4): facts are
kept in first-seen order and an exact duplicate is not re-added. -/
def addFact (r : CompetitorRecord) (f : CompetitorFact) : CompetitorRecord :=
  if f ∈ r.facts then r else ⟨r.identity, r.facts ++ [f]⟩

/-- Modelled from the spec: does an existing record match an identity
candidate (§4.4) — its key equals the candidate's normalized key, or one is a
substring of the other with length ratio at least 0.6. -/
def recordMatches (r : CompetitorRecord) (cand : String) : Bool :=
  keysClash r.identity (normalizeKey cand)

/-- Modelled from the spec: §4.4 upsert over the record list — merge the fact
into the first record the candidate matches, or append a fresh record keyed
by the candidate's normalized name. -/
def upsertRec : List CompetitorRecord → String → CompetitorFact →
    List CompetitorRecord
  | [], cand, f => [⟨normalizeKey cand, [f]⟩]
  | r :: rs, cand, f =>
    if recordMatches r cand then addFact r f :: rs
    else r :: upsertRec rs cand f

/-- Modelled from the spec: the §4.4 Registry upsert operation. -/
def upsert (reg : Registry) (cand : String) (f : CompetitorFact) : Registry :=
  ⟨upsertRec reg.records cand f⟩

/-- Modelled from the spec: the §4.4 snapshot operation — the records in
first-identified order. -/
def snapshot (reg : Registry) : List CompetitorRecord :=
  reg.records

/-- Modelled from the spec: processing a sequence of facts of one identity
candidate through the Registry, one upsert per fact in order (§4.5 collection
feeding §4.4 upsert). -/
def processFacts : Registry → String → List CompetitorFact → Registry
  | reg, _, [] => reg
  | reg, cand, f :: fs => processFacts (upsert reg cand f) cand fs

/-- Modelled from the spec: the §3 analysis types. -/
inductive AnalysisType
  | competitor
  | market
  | swot
  | pricing
  | full
deriving Repr, DecidableEq

/-- Modelled from the spec: the §3 AnalysisRequest, immutable for the run. -/
structure AnalysisRequest where
  target : String
  industry : String
  targetAudience : String
  keyFeaturesHint : String
  analysisType : AnalysisType
deriving Repr, DecidableEq

/-- Modelled from the spec: the §7 run-level errors surfaced to the caller —
invalid request and total identification failure. -/
inductive RunError
  | invalidRequest
  | identificationFailure
deriving Repr, DecidableEq

/-- Modelled from the spec: the §4.2 typed result of a Tool Gateway fetch. -/
inductive FetchResult
  | ok (text : String)
  | fetchError
deriving Repr, DecidableEq

/-- Modelled from the spec: one §4.2 search result — title, snippet, url. -/
structure SearchResult where
  title : String
  snippet : String
  url : String
deriving Repr, DecidableEq

/-- Modelled from the spec: the §4.2 Tool Gateway capability interface the
core consumes; the gateway implementation is outside the core. -/
structure Gateway where
  search : String → List SearchResult
  fetch : String → FetchResult

/-- Modelled from the spec: the §3 ResearchStep kinds. -/
inductive StepKind
  | identify_competitors
  | collect_profile
  | collect_pricing
  | collect_features
deriving Repr, DecidableEq

/-- Modelled from the spec: the §4.5 step states. -/
inductive StepStatus
  | pending
  | running
  | done
  | failed
deriving Repr, DecidableEq

/-- Modelled from the spec: a §3 ResearchStep — kind and the competitor
reference, which stays none until identification resolves it. -/
structure ResearchStep where
  kind : StepKind
  competitor : Option String
deriving Repr, DecidableEq

/-- Modelled from the spec: the scheduling events of a run used to state the
§5 ordering guarantee — a step starting and a step reaching a state. -/
inductive RunEvent
  | stepStarted (kind : StepKind) (competitor : Option String)
  | stepEnded (kind : StepKind) (competitor : Option String)
      (status : StepStatus)
deriving Repr, DecidableEq

/-- Modelled from the spec: the calls a run issues on the Tool Gateway,
recorded so the §8 no-calls-on-invalid-request property can be stated. -/
inductive ToolCall
  | searchCall (query : String)
  | fetchCall (url : String)
deriving Repr, DecidableEq

/-- Modelled from the spec: one §4.5 transparency-log entry for a failed
step. -/
structure LogEntry where
  step : StepKind
  competitor : String
  reason : String
deriving Repr, DecidableEq

/-- Modelled from the spec: the §7 explicit status field distinguishing a
fully synthesized payload from a partial one. -/
inductive RunStatus
  | complete
  | partialResult
deriving Repr, DecidableEq

/-- Modelled from the spec: the §3 AnalysisPayload view a run returns —
status, identified competitors, collected facts, transparency log. -/
structure AnalysisPayload where
  status : RunStatus
  competitors : List String
  facts : List CompetitorFact
  log : List LogEntry
deriving Repr, DecidableEq

/-- Modelled from the spec: the §4.1 Research Planner — the identify step is
always first; per-competitor template steps follow for the analysis types
they are relevant to; empty-after-trimming targets are rejected with
InvalidRequest. -/
def plan (req : AnalysisRequest) : Except RunError (List ResearchStep) :=
  if trimStr req.target = "" then Except.error RunError.invalidRequest
  else
    Except.ok
      (⟨StepKind.identify_competitors, none⟩ ::
        (match req.analysisType with
         | AnalysisType.full =>
            [⟨StepKind.collect_profile, none⟩, ⟨StepKind.collect_pricing, none⟩,
             ⟨StepKind.collect_features, none⟩]
         | AnalysisType.competitor =>
            [⟨StepKind.collect_profile, none⟩, ⟨StepKind.collect_pricing, none⟩,
             ⟨StepKind.collect_features, none⟩]
         | AnalysisType.pricing => [⟨StepKind.collect_pricing, none⟩]
         | AnalysisType.market => [⟨StepKind.collect_profile, none⟩]
         | AnalysisType.swot =>
            [⟨StepKind.collect_profile, none⟩,
             ⟨StepKind.collect_features, none⟩]))

/-- Modelled from the spec: the per-competitor step kinds the §4.5
Orchestrator expands the plan templates into once identities are known. -/
def perCompetitorKinds (req : AnalysisRequest) : List StepKind :=
  match req.analysisType with
  | AnalysisType.full =>
      [StepKind.collect_profile, StepKind.collect_pricing,
       StepKind.collect_features]
  | AnalysisType.competitor =>
      [StepKind.collect_profile, StepKind.collect_pricing,
       StepKind.collect_features]
  | AnalysisType.pricing => [StepKind.collect_pricing]
  | AnalysisType.market => [StepKind.collect_profile]
  | AnalysisType.swot =>
      [StepKind.collect_profile, StepKind.collect_features]

/-- Modelled from the spec: the fact field a per-competitor collection step
produces (§4.5 collection feeding §3 fields). -/
def stepField : StepKind → FactField
  | StepKind.identify_competitors => FactField.name
  | StepKind.collect_profile => FactField.description
  | StepKind.collect_pricing => FactField.pricing_tiers
  | StepKind.collect_features => FactField.key_features

/-- Modelled from the spec: a short slug naming a step kind inside the fetch
url of that step. -/
def stepSlug : StepKind → String
  | StepKind.identify_competitors => "identify"
  | StepKind.collect_profile => "profile"
  | StepKind.collect_pricing => "pricing"
  | StepKind.collect_features => "features"

/-- Modelled from the spec: the url a per-competitor collection step
fetches. -/
def stepUrl (kind : StepKind) (name : String) : String :=
  name ++ "/" ++ stepSlug kind

/-- Modelled from the spec: the concatenable output of a stretch of
collection work — facts, log entries, scheduling events, gateway calls. -/
structure CollectOut where
  facts : List CompetitorFact
  log : List LogEntry
  events : List RunEvent
  calls : List ToolCall
deriving Repr, DecidableEq

/-- Modelled from the spec: concatenation of collection outputs in execution
order. -/
def CollectOut.append (a b : CollectOut) : CollectOut :=
  ⟨a.facts ++ b.facts, a.log ++ b.log, a.events ++ b.events,
   a.calls ++ b.calls⟩

/-- Modelled from the spec: one per-competitor collection step (§4.5): fetch
the step url; a typed fetch failure is absorbed into a failed step with one
transparency-log entry and no facts, a success yields one fact of the step's
field. -/
def collectStep (gw : Gateway) (kind : StepKind) (name : String) :
    CollectOut :=
  let url := stepUrl kind name
  match gw.fetch url with
  | FetchResult.ok text =>
      ⟨[⟨stepField kind, text, 1, url, 0⟩], [],
       [RunEvent.stepStarted kind (some name),
        RunEvent.stepEnded kind (some name) StepStatus.done],
       [ToolCall.fetchCall url]⟩
  | FetchResult.fetchError =>
      ⟨[], [⟨kind, name, "FetchError"⟩],
       [RunEvent.stepStarted kind (some name),
        RunEvent.stepEnded kind (some name) StepStatus.failed],
       [ToolCall.fetchCall url]⟩

/-- Modelled from the spec: all collection steps of one competitor, in plan
order. -/
def collectForCompetitor (gw : Gateway) (name : String) :
    List StepKind → CollectOut
  | [] => ⟨[], [], [], []⟩
  | k :: ks =>
      CollectOut.append (collectStep gw k name)
        (collectForCompetitor gw name ks)

/-- Modelled from the spec: the whole collection phase over the identified
competitors (§4.5). -/
def collectAll (gw : Gateway) (kinds : List StepKind) :
    List String → CollectOut
  | [] => ⟨[], [], [], []⟩
  | n :: ns =>
      CollectOut.append (collectForCompetitor gw n kinds)
        (collectAll gw kinds ns)

/-- Modelled from the spec: the §4.5 search query derived from the target
descriptor and the industry hint. -/
def searchQuery (req : AnalysisRequest) : String :=
  req.target ++ " competitors " ++ req.industry

/-- Modelled from the spec: §4.5 candidate-name deduplication through the
Registry's identity resolution — keep the first of every clashing group. -/
def dedupNames (ns : List String) : List String :=
  ns.foldl
    (fun acc n =>
      if acc.any (fun m => keysClash (normalizeKey m) (normalizeKey n)) then
        acc
      else acc ++ [n])
    []

/-- Modelled from the spec: the §4.5 identification step result — candidate
competitor names from the search results, deduplicated. -/
def identifyNames (gw : Gateway) (req : AnalysisRequest) : List String :=
  dedupNames ((gw.search (searchQuery req)).map (fun r => r.title))

/-- Modelled from the spec: the scheduling events of the identification step;
it terminates done when at least one identity was produced and failed
otherwise (§4.5). -/
def identEvents (ok : Bool) : List RunEvent :=
  [RunEvent.stepStarted StepKind.identify_competitors none,
   RunEvent.stepEnded StepKind.identify_competitors none
     (if ok then StepStatus.done else StepStatus.failed)]

/-- Modelled from the spec: the outcome of a run together with the gateway
calls it issued and its scheduling events. -/
structure RunResult where
  outcome : Except RunError AnalysisPayload
  calls : List ToolCall
  events : List RunEvent

/-- Modelled from the spec: the §6 run_analysis entry point — the backend
Pipeline Coordinator is absent from the snapshot. An empty-after-trimming
target fails with InvalidRequest before any gateway call; zero identified
competitors fail the run; otherwise collection proceeds per competitor,
absorbing step failures into the transparency log, and the payload status is
partial exactly when some step failed. -/
def run_analysis (gw : Gateway) (req : AnalysisRequest) : RunResult :=
  if trimStr req.target = "" then
    ⟨Except.error RunError.invalidRequest, [], []⟩
  else if identifyNames gw req = [] then
    ⟨Except.error RunError.identificationFailure,
     [ToolCall.searchCall (searchQuery req)], identEvents false⟩
  else
    ⟨Except.ok
       ⟨if (collectAll gw (perCompetitorKinds req)
              (identifyNames gw req)).log = [] then RunStatus.complete
        else RunStatus.partialResult,
        identifyNames gw req,
        (collectAll gw (perCompetitorKinds req) (identifyNames gw req)).facts,
        (collectAll gw (perCompetitorKinds req) (identifyNames gw req)).log⟩,
     ToolCall.searchCall (searchQuery req)
       :: (collectAll gw (perCompetitorKinds req) (identifyNames gw req)).calls,
     identEvents true
       ++ (collectAll gw (perCompetitorKinds req) (identifyNames gw req)).events⟩

/-- A concrete gateway whose search finds one competitor and whose every
fetch fails, used to exercise the degraded-run properties. -/
def gwAllFail : Gateway :=
  ⟨fun _ => [⟨"Asana", "", "url"⟩], fun _ => FetchResult.fetchError⟩

/-- A concrete full-analysis request used to exercise the run pipeline. -/
def reqFull : AnalysisRequest :=
  ⟨"Notion", "saas", "", "", AnalysisType.full⟩

/-- Modelled from the spec: is an event the start of a per-competitor step
(§5 ordering guarantee). -/
def isPerCompStart : RunEvent → Bool
  | RunEvent.stepStarted _ (some _) => true
  | _ => false

/-- Modelled from the spec: is an event the identification step reaching a
terminal state (§5 ordering guarantee). -/
def isIdentTerminal : RunEvent → Bool
  | RunEvent.stepEnded StepKind.identify_competitors _ StepStatus.done => true
  | RunEvent.stepEnded StepKind.identify_competitors _ StepStatus.failed =>
      true
  | _ => false

/-- Helper: addFact never changes the record's identity key. -/
theorem addFact_identity (r : CompetitorRecord) (f : CompetitorFact) :
    (addFact r f).identity = r.identity := by
  unfold addFact
  split <;> rfl

/-- Helper: after addFact the fact is among the retained facts. -/
theorem mem_addFact (r : CompetitorRecord) (f : CompetitorFact) :
    f ∈ (addFact r f).facts := by
  unfold addFact
  split
  · assumption
  · simp

/-- Helper: adding a fact a record already retains changes nothing. -/
theorem addFact_mem_noop (s : CompetitorRecord) (f : CompetitorFact)
    (h : f ∈ s.facts) : addFact s f = s := by
  unfold addFact
  rw [if_pos h]

/-- Helper: retaining the same fact twice is the same as retaining it once. -/
theorem addFact_addFact (r : CompetitorRecord) (f : CompetitorFact) :
    addFact (addFact r f) f = addFact r f :=
  addFact_mem_noop _ f (mem_addFact r f)

/-- Helper: a record equals the record rebuilt from its key and facts. -/
theorem record_eta (r : CompetitorRecord) (k : String)
    (h : r.identity = k) : r = ⟨k, r.facts⟩ := by
  cases r
  cases h
  rfl

/-- Helper: a key always clashes with itself. -/
theorem keysClash_self (k : String) : keysClash k k = true := by
  simp [keysClash]

/-- Helper: hasFeature only looks at the result of the find? lookup for the
competitor, so equal lookups give equal cells. -/
theorem hasFeature_congrFD (fd1 fd2 : List FeatureData) (c kw : String)
    (h : fd1.find? (fun f => f.name == c)
          = fd2.find? (fun f => f.name == c)) :
    hasFeature fd1 c kw = hasFeature fd2 c kw := by
  unfold hasFeature
  rw [h]

/-- C9: in the rendered feature matrix, a competitor with no row in the
supplied feature data, or whose features string is empty or exactly N/A, gets
a not-available cell for every feature; any other competitor's cell is
available exactly when the lowercased vocabulary keyword occurs as a
substring of the lowercased feature text. -/
theorem hasFeature_cases (fd : List FeatureData) (c kw : String) :
    (fd.find? (fun f => f.name == c) = none → hasFeature fd c kw = false)
    ∧ (∀ d, fd.find? (fun f => f.name == c) = some d →
        (d.features = "" ∨ d.features = "N/A") → hasFeature fd c kw = false)
    ∧ (∀ d, fd.find? (fun f => f.name == c) = some d →
        d.features ≠ "" → d.features ≠ "N/A" →
        (hasFeature fd c kw = true ↔
          (toLowerStr kw).data <:+: (toLowerStr d.features).data)) := by
  refine ⟨fun h => ?_, fun d hd hde => ?_, fun d hd h1 h2 => ?_⟩
  · simp [hasFeature, h]
  · rcases hde with h | h <;> simp [hasFeature, hd, h]
  · simp [hasFeature, hd, h1, h2, strIncludes]

/-- Witness for hasFeature_cases: a concrete competitor whose feature text
contains the keyword api. -/
theorem hasFeature_cases_witness :
    hasFeature [⟨"Acme", "Payment Processing, API"⟩] "Acme" "api" = true :=
  ((hasFeature_cases [⟨"Acme", "Payment Processing, API"⟩] "Acme" "api").2.2
      ⟨"Acme", "Payment Processing, API"⟩ rfl (by decide) (by decide)).mpr
    (by decide)

/-- C10: the pricing table renders at most the first three features of a tier
as individual bullet lines; with more than three features it renders exactly
those three bullets followed by one line counting the remaining features, and
with at most three it renders exactly one bullet per feature and nothing
else. -/
theorem tierFeatureLines_spec (t : Tier) :
    (t.features.take 3).length ≤ 3
    ∧ (3 < t.features.length →
        tierFeatureLines t
          = (t.features.take 3).map (fun f => "• " ++ f)
            ++ ["+" ++ toString (t.features.length - 3) ++ " more features"])
    ∧ (t.features.length ≤ 3 →
        tierFeatureLines t = t.features.map (fun f => "• " ++ f)) := by
  refine ⟨?_, fun h => ?_, fun h => ?_⟩
  · simp
  · simp [tierFeatureLines, h]
  · have h3 : ¬ 3 < t.features.length := not_lt.mpr h
    simp [tierFeatureLines, h3, List.take_of_length_le h]

/-- Witness for tierFeatureLines_spec at a five-feature tier. -/
theorem tierFeatureLines_spec_witness :
    3 < (["a", "b", "c", "d", "e"] : List String).length
    ∧ tierFeatureLines ⟨"Pro", "$10", ["a", "b", "c", "d", "e"], false⟩
        = ((["a", "b", "c", "d", "e"] : List String).take 3).map
            (fun f => "• " ++ f)
          ++ ["+"
              ++ toString ((["a", "b", "c", "d", "e"] : List String).length - 3)
              ++ " more features"] :=
  ⟨by decide,
   (tierFeatureLines_spec
      ⟨"Pro", "$10", ["a", "b", "c", "d", "e"], false⟩).2.1 (by decide)⟩

/-- C2 is refuted: the feature-matrix variant that computes cells from
competitor data maps a Boolean hasFeature result to only the Check and X
icons, so the Minus (partial) state is unreachable for every input — the
claimed tri-state with a partial state for near-synonym matches does not
exist in the computation. Concretely, a competitor whose feature text reads
online store platform gets an X cell for the keyword e-commerce, and the two
possible cell values, Check for true and X for false, both differ from
Minus. -/
theorem feature_cell_tri_state_counterexample :
    cellIcon [⟨"Acme", "online store platform"⟩] "Acme" "e-commerce" = Icon.x
    ∧ getFeatureIconB true = Icon.check
    ∧ getFeatureIconB false = Icon.x
    ∧ Icon.minus ≠ Icon.check
    ∧ Icon.minus ≠ Icon.x :=
  ⟨by decide, rfl, rfl, by decide, by decide⟩

/-- C2 amended: every computed feature-matrix cell takes exactly one of two
states — available (Check) exactly when hasFeature finds the lowercased
keyword in the competitor's lowercased feature text, and not-available (X)
otherwise; the partial (Minus) icon is never computed, existing only in the
matrix variant that renders tri-state values it is handed. -/
theorem feature_cell_two_state (fd : List FeatureData) (c kw : String) :
    (cellIcon fd c kw = Icon.check ∨ cellIcon fd c kw = Icon.x)
    ∧ cellIcon fd c kw ≠ Icon.minus
    ∧ (cellIcon fd c kw = Icon.check ↔ hasFeature fd c kw = true)
    ∧ getFeatureIconTri TriVal.partialVal = Icon.minus := by
  cases h : hasFeature fd c kw <;>
    simp [cellIcon, getFeatureIconB, getFeatureIconTri, h]

/-- C3: the structural synthesis is deterministic — the feature matrix
depends only on the per-competitor lookup into the feature data, and the
pricing table only on the pricing records, so identical frozen data yields
identical matrix and table output. -/
theorem structural_synthesis_deterministic (competitors : List String)
    (fd1 fd2 : List FeatureData) (pd1 pd2 : List PricingTier)
    (hf : ∀ c, fd1.find? (fun f => f.name == c)
            = fd2.find? (fun f => f.name == c))
    (hp : pd1 = pd2) :
    buildFeatureMatrix competitors fd1 = buildFeatureMatrix competitors fd2
    ∧ renderPricingTable pd1 = renderPricingTable pd2 := by
  constructor
  · unfold buildFeatureMatrix
    apply List.map_congr_left
    intro kw _
    congr 1
    apply List.map_congr_left
    intro c _
    unfold cellIcon
    rw [hasFeature_congrFD fd1 fd2 c kw (hf c)]
  · rw [hp]

/-- Witness for structural_synthesis_deterministic on concrete equal data. -/
theorem structural_synthesis_deterministic_witness :
    buildFeatureMatrix ["Acme"] [⟨"Acme", "api"⟩]
        = buildFeatureMatrix ["Acme"] [⟨"Acme", "api"⟩]
    ∧ renderPricingTable [] = renderPricingTable [] :=
  structural_synthesis_deterministic ["Acme"] [⟨"Acme", "api"⟩]
    [⟨"Acme", "api"⟩] [] [] (fun _ => rfl) rfl

/-- Helper: upsert keeps the record count when some record matches the
candidate and grows it by one otherwise. -/
theorem upsertRec_length (rs : List CompetitorRecord) (cand : String)
    (f : CompetitorFact) :
    (upsertRec rs cand f).length
      = if rs.any (fun r => recordMatches r cand) then rs.length
        else rs.length + 1 := by
  induction rs with
  | nil => simp [upsertRec]
  | cons r rs ih =>
      rcases Bool.eq_false_or_eq_true (recordMatches r cand) with h | h
      · rw [show upsertRec (r :: rs) cand f = addFact r f :: rs from by
            simp [upsertRec, h]]
        rw [List.any_cons, h, Bool.true_or, if_pos rfl]
        rfl
      · rw [show upsertRec (r :: rs) cand f = r :: upsertRec rs cand f from by
            simp [upsertRec, h]]
        rw [List.length_cons, ih, List.any_cons, h, Bool.false_or]
        rcases Bool.eq_false_or_eq_true
            (rs.any fun x => recordMatches x cand) with h2 | h2 <;>
          rw [h2] <;> simp

/-- C4: spec-modelled Registry identity resolution — upserting a candidate
merges into the existing record set, rather than creating a new record,
exactly when some record's key equals the candidate's normalized key or one
is a substring of the other with length ratio at least 0.6; and the two raw
candidates Stripe, Inc. and stripe produce exactly one CompetitorRecord. -/
theorem identity_resolution_merges :
    (∀ (reg : Registry) (cand : String) (f : CompetitorFact),
      ((upsert reg cand f).records.length = reg.records.length
        ↔ ∃ r ∈ reg.records,
            r.identity = normalizeKey cand
            ∨ ((strIncludes r.identity (normalizeKey cand) = true
                  ∨ strIncludes (normalizeKey cand) r.identity = true)
                ∧ ratioOK r.identity.length (normalizeKey cand).length
                    = true)))
    ∧ ∀ f1 f2 : CompetitorFact,
        (upsert (upsert emptyRegistry "Stripe, Inc." f1) "stripe" f2
          ).records.length = 1 := by
  constructor
  · intro reg cand f
    have hmatch : ∀ r : CompetitorRecord, recordMatches r cand = true ↔
        (r.identity = normalizeKey cand
          ∨ ((strIncludes r.identity (normalizeKey cand) = true
                ∨ strIncludes (normalizeKey cand) r.identity = true)
              ∧ ratioOK r.identity.length (normalizeKey cand).length
                  = true)) := by
      intro r
      rw [recordMatches, keysClash]
      simp [Bool.or_eq_true, Bool.and_eq_true, beq_iff_eq]
    rw [show (upsert reg cand f).records = upsertRec reg.records cand f
          from rfl,
        upsertRec_length]
    rcases Bool.eq_false_or_eq_true
        (reg.records.any (fun r => recordMatches r cand)) with h | h
    · rw [h, if_pos rfl]
      refine ⟨fun _ => ?_, fun _ => rfl⟩
      rw [List.any_eq_true] at h
      obtain ⟨r, hr, hm⟩ := h
      exact ⟨r, hr, (hmatch r).mp hm⟩
    · rw [h, if_neg Bool.false_ne_true]
      constructor
      · intro hEq
        omega
      · intro hex
        exfalso
        obtain ⟨r, hr, hcond⟩ := hex
        rw [List.any_eq_false] at h
        exact h r hr ((hmatch r).mpr hcond)
  · intro f1 f2
    rfl

/-- Helper: upserting the same fact twice into the same record list, from
the same candidate, is the same as upserting it once. -/
theorem upsertRec_idem (rs : List CompetitorRecord) (cand : String)
    (f : CompetitorFact) :
    upsertRec (upsertRec rs cand f) cand f = upsertRec rs cand f := by
  induction rs with
  | nil => simp [upsertRec, recordMatches, keysClash_self, addFact]
  | cons r rs ih =>
      rcases Bool.eq_false_or_eq_true (recordMatches r cand) with h | h
      · have h2 : recordMatches (addFact r f) cand = true := by
          rw [recordMatches, addFact_identity]
          exact h
        simp [upsertRec, h, h2, addFact_addFact]
      · simp [upsertRec, h, ih]

/-- C5: spec-modelled Registry upsert is idempotent — upserting the same
identity candidate and fact twice yields a snapshot identical to upserting
it once. -/
theorem upsert_idempotent (reg : Registry) (cand : String)
    (f : CompetitorFact) :
    snapshot (upsert (upsert reg cand f) cand f)
      = snapshot (upsert reg cand f) := by
  show Registry.records _ = Registry.records _
  exact congrArg Registry.records
    (congrArg Registry.mk (upsertRec_idem reg.records cand f))

/-- Helper: a record that does not match the candidate is passed over
unchanged by a whole sequence of upserts of that candidate. -/
theorem processFacts_cons_nonmatch (r : CompetitorRecord) (cand : String)
    (h : recordMatches r cand = false) (fs : List CompetitorFact) :
    ∀ rs, processFacts ⟨r :: rs⟩ cand fs
        = ⟨r :: (processFacts ⟨rs⟩ cand fs).records⟩ := by
  induction fs with
  | nil => intro rs; rfl
  | cons f fs ih =>
      intro rs
      have hu : upsert ⟨r :: rs⟩ cand f = ⟨r :: upsertRec rs cand f⟩ := by
        simp [upsert, upsertRec, h]
      show processFacts (upsert ⟨r :: rs⟩ cand f) cand fs = _
      rw [hu, ih (upsertRec rs cand f)]
      rfl

/-- Helper: processing a fact sequence of one candidate against exactly the
record keyed by that candidate keeps a single record with that key. -/
theorem processFacts_single (cand : String) (fs : List CompetitorFact) :
    ∀ acc, ∃ rec,
      processFacts ⟨[⟨normalizeKey cand, acc⟩]⟩ cand fs = ⟨[rec]⟩
      ∧ rec.identity = normalizeKey cand := by
  induction fs with
  | nil => exact fun acc => ⟨⟨normalizeKey cand, acc⟩, rfl, rfl⟩
  | cons f fs ih =>
      intro acc
      have hm : recordMatches ⟨normalizeKey cand, acc⟩ cand = true := by
        simp [recordMatches, keysClash_self]
      have he : addFact ⟨normalizeKey cand, acc⟩ f
          = ⟨normalizeKey cand, (addFact ⟨normalizeKey cand, acc⟩ f).facts⟩ :=
        record_eta _ _ (addFact_identity _ _)
      have hu : upsert ⟨[⟨normalizeKey cand, acc⟩]⟩ cand f
          = ⟨[⟨normalizeKey cand,
                (addFact ⟨normalizeKey cand, acc⟩ f).facts⟩]⟩ := by
        simp only [upsert, upsertRec, hm, if_true]
        rw [← he]
      show ∃ rec,
          processFacts (upsert ⟨[⟨normalizeKey cand, acc⟩]⟩ cand f) cand fs
            = ⟨[rec]⟩ ∧ rec.identity = normalizeKey cand
      rw [hu]
      exact ih _

/-- C6: spec-modelled Registry merge is commutative under interleaving —
for fact sequences of two identity candidates whose keys do not clash,
processing the first candidate's facts and then the second's yields the same
final record set, up to permutation, as the opposite order. -/
theorem registry_merge_commutative (a b : String)
    (fsA fsB : List CompetitorFact)
    (hab : keysClash (normalizeKey a) (normalizeKey b) = false)
    (hba : keysClash (normalizeKey b) (normalizeKey a) = false) :
    (processFacts (processFacts emptyRegistry a fsA) b fsB).records.Perm
      (processFacts (processFacts emptyRegistry b fsB) a fsA).records := by
  cases fsA with
  | nil => exact List.Perm.refl _
  | cons f fs =>
      cases fsB with
      | nil => exact List.Perm.refl _
      | cons g gs =>
          obtain ⟨recA, hA, hAid⟩ := processFacts_single a fs [f]
          obtain ⟨recB, hB, hBid⟩ := processFacts_single b gs [g]
          have hA' : processFacts emptyRegistry a (f :: fs) = ⟨[recA]⟩ := hA
          have hB' : processFacts emptyRegistry b (g :: gs) = ⟨[recB]⟩ := hB
          have hmA : recordMatches recA b = false := by
            rw [recordMatches, hAid]
            exact hab
          have hmB : recordMatches recB a = false := by
            rw [recordMatches, hBid]
            exact hba
          rw [hA', hB',
              processFacts_cons_nonmatch recA b hmA (g :: gs) [],
              processFacts_cons_nonmatch recB a hmB (f :: fs) []]
          show (recA :: (processFacts ⟨[]⟩ b (g :: gs)).records).Perm
            (recB :: (processFacts ⟨[]⟩ a (f :: fs)).records)
          rw [show processFacts (⟨[]⟩ : Registry) b (g :: gs) = ⟨[recB]⟩
                from hB',
              show processFacts (⟨[]⟩ : Registry) a (f :: fs) = ⟨[recA]⟩
                from hA']
          exact List.Perm.swap recB recA []

/-- Witness for feature_cell_two_state at a concrete cell. -/
theorem feature_cell_two_state_witness :
    (cellIcon [⟨"Acme", "api"⟩] "Acme" "api" = Icon.check
      ∨ cellIcon [⟨"Acme", "api"⟩] "Acme" "api" = Icon.x)
    ∧ cellIcon [⟨"Acme", "api"⟩] "Acme" "api" ≠ Icon.minus
    ∧ (cellIcon [⟨"Acme", "api"⟩] "Acme" "api" = Icon.check
        ↔ hasFeature [⟨"Acme", "api"⟩] "Acme" "api" = true)
    ∧ getFeatureIconTri TriVal.partialVal = Icon.minus :=
  feature_cell_two_state [⟨"Acme", "api"⟩] "Acme" "api"

/-- Witness for identity_resolution_merges: the Stripe scenario at concrete
facts. -/
theorem identity_resolution_merges_witness :
    (upsert (upsert emptyRegistry "Stripe, Inc."
        ⟨FactField.name, "Stripe", 1, "u", 0⟩) "stripe"
        ⟨FactField.name, "stripe", 1, "v", 1⟩).records.length = 1 :=
  identity_resolution_merges.2 ⟨FactField.name, "Stripe", 1, "u", 0⟩
    ⟨FactField.name, "stripe", 1, "v", 1⟩

/-- Witness for upsert_idempotent at a concrete registry and fact. -/
theorem upsert_idempotent_witness :
    snapshot (upsert (upsert (upsert emptyRegistry "Acme"
        ⟨FactField.name, "Acme", 1, "u", 0⟩) "Acme"
        ⟨FactField.description, "tools", 1, "u", 0⟩) "Acme"
        ⟨FactField.description, "tools", 1, "u", 0⟩)
      = snapshot (upsert (upsert emptyRegistry "Acme"
        ⟨FactField.name, "Acme", 1, "u", 0⟩) "Acme"
        ⟨FactField.description, "tools", 1, "u", 0⟩) :=
  upsert_idempotent (upsert emptyRegistry "Acme"
      ⟨FactField.name, "Acme", 1, "u", 0⟩) "Acme"
    ⟨FactField.description, "tools", 1, "u", 0⟩

/-- Witness for registry_merge_commutative: the candidates Alpha and Beta do
not clash and their singleton fact sequences commute. -/
theorem registry_merge_commutative_witness :
    keysClash (normalizeKey "Alpha") (normalizeKey "Beta") = false
    ∧ (processFacts (processFacts emptyRegistry "Alpha"
          [⟨FactField.name, "Alpha", 1, "u", 0⟩]) "Beta"
          [⟨FactField.name, "Beta", 1, "v", 0⟩]).records.Perm
        (processFacts (processFacts emptyRegistry "Beta"
          [⟨FactField.name, "Beta", 1, "v", 0⟩]) "Alpha"
          [⟨FactField.name, "Alpha", 1, "u", 0⟩]).records :=
  ⟨by decide,
   registry_merge_commutative "Alpha" "Beta"
     [⟨FactField.name, "Alpha", 1, "u", 0⟩]
     [⟨FactField.name, "Beta", 1, "v", 0⟩] (by decide) (by decide)⟩

/-- Helper: with a gateway whose every fetch fails, one collection step
produces no facts, one log entry, a failed end event, and one call. -/
theorem collectStep_allfail (gw : Gateway)
    (hf : ∀ u, gw.fetch u = FetchResult.fetchError) (k : StepKind)
    (n : String) :
    collectStep gw k n
      = ⟨[], [⟨k, n, "FetchError"⟩],
         [RunEvent.stepStarted k (some n),
          RunEvent.stepEnded k (some n) StepStatus.failed],
         [ToolCall.fetchCall (stepUrl k n)]⟩ := by
  simp [collectStep, hf]

/-- Helper: with a gateway whose every fetch fails, collecting for one
competitor yields no facts and one log entry per step kind. -/
theorem collectForCompetitor_allfail (gw : Gateway)
    (hf : ∀ u, gw.fetch u = FetchResult.fetchError) (n : String)
    (ks : List StepKind) :
    (collectForCompetitor gw n ks).facts = []
      ∧ (collectForCompetitor gw n ks).log.length = ks.length := by
  induction ks with
  | nil => exact ⟨rfl, rfl⟩
  | cons k ks ih =>
      have hstep := collectStep_allfail gw hf k n
      refine ⟨?_, ?_⟩
      · show (CollectOut.append (collectStep gw k n)
              (collectForCompetitor gw n ks)).facts = []
        rw [hstep]
        show [] ++ (collectForCompetitor gw n ks).facts = []
        rw [ih.1]
        rfl
      · show (CollectOut.append (collectStep gw k n)
              (collectForCompetitor gw n ks)).log.length = ks.length + 1
        rw [hstep]
        show ([(⟨k, n, "FetchError"⟩ : LogEntry)]
            ++ (collectForCompetitor gw n ks).log).length = ks.length + 1
        rw [List.length_append, ih.2, List.length_singleton]
        omega

/-- Helper: with a gateway whose every fetch fails, the collection phase
yields no facts and one log entry per step over every competitor. -/
theorem collectAll_allfail (gw : Gateway)
    (hf : ∀ u, gw.fetch u = FetchResult.fetchError)
    (kinds : List StepKind) (ns : List String) :
    (collectAll gw kinds ns).facts = []
      ∧ (collectAll gw kinds ns).log.length = ns.length * kinds.length := by
  induction ns with
  | nil =>
      refine ⟨rfl, ?_⟩
      show (0 : Nat) = 0 * kinds.length
      rw [Nat.zero_mul]
  | cons n ns ih =>
      refine ⟨?_, ?_⟩
      · show (collectForCompetitor gw n kinds).facts
            ++ (collectAll gw kinds ns).facts = []
        rw [(collectForCompetitor_allfail gw hf n kinds).1, ih.1]
        rfl
      · show ((collectForCompetitor gw n kinds).log
            ++ (collectAll gw kinds ns).log).length
            = (n :: ns).length * kinds.length
        rw [List.length_append,
            (collectForCompetitor_allfail gw hf n kinds).2, ih.2,
            List.length_cons]
        ring

/-- Helper: every analysis type keeps at least one per-competitor collection
step. -/
theorem perCompetitorKinds_ne_nil (req : AnalysisRequest) :
    perCompetitorKinds req ≠ [] := by
  cases h : req.analysisType <;> simp [perCompetitorKinds, h]

/-- Helper: the shape a run takes when the target is nonempty and at least
one competitor was identified. -/
theorem run_analysis_ok (gw : Gateway) (req : AnalysisRequest)
    (ht : trimStr req.target ≠ "") (hn : identifyNames gw req ≠ []) :
    run_analysis gw req
      = ⟨Except.ok
           ⟨if (collectAll gw (perCompetitorKinds req)
                  (identifyNames gw req)).log = [] then RunStatus.complete
             else RunStatus.partialResult,
             identifyNames gw req,
             (collectAll gw (perCompetitorKinds req)
               (identifyNames gw req)).facts,
             (collectAll gw (perCompetitorKinds req)
               (identifyNames gw req)).log⟩,
         ToolCall.searchCall (searchQuery req)
           :: (collectAll gw (perCompetitorKinds req)
                (identifyNames gw req)).calls,
         identEvents true
           ++ (collectAll gw (perCompetitorKinds req)
                (identifyNames gw req)).events⟩ := by
  unfold run_analysis
  rw [if_neg ht, if_neg hn]

/-- C1: spec-modelled run entry plus the form boundary — a target that trims
to empty fails with InvalidRequest before any Tool Gateway call, and a
company name that trims to empty keeps the Start Analysis button
disabled. -/
theorem invalid_target_rejected :
    (∀ gw req, trimStr req.target = "" →
      run_analysis gw req = ⟨Except.error RunError.invalidRequest, [], []⟩)
    ∧ (∀ companyName isLoading, trimStr companyName = "" →
        startAnalysisDisabled companyName isLoading = true) := by
  constructor
  · intro gw req h
    unfold run_analysis
    rw [if_pos h]
  · intro c l h
    unfold startAnalysisDisabled
    rw [h]
    rfl

/-- Witness for invalid_target_rejected on whitespace-only inputs. -/
theorem invalid_target_rejected_witness :
    run_analysis gwAllFail ⟨"   ", "", "", "", AnalysisType.full⟩
        = ⟨Except.error RunError.invalidRequest, [], []⟩
    ∧ startAnalysisDisabled " " true = true :=
  ⟨invalid_target_rejected.1 gwAllFail
      ⟨"   ", "", "", "", AnalysisType.full⟩ (by decide),
   invalid_target_rejected.2 " " true (by decide)⟩

/-- C7: spec-modelled degradation — when every fetch fails but at least one
competitor was identified, the run returns an ok payload with partial
status, no pricing_tiers fact, and one log entry per failed step; run-level
errors are only InvalidRequest or total identification failure, and every
other run yields a best-effort payload. -/
theorem fetch_failures_degrade_gracefully :
    (∀ gw req, (∀ u, gw.fetch u = FetchResult.fetchError) →
      trimStr req.target ≠ "" → identifyNames gw req ≠ [] →
      ∃ p, (run_analysis gw req).outcome = Except.ok p
        ∧ p.status = RunStatus.partialResult
        ∧ p.facts.filter (fun x => x.factField == FactField.pricing_tiers)
            = []
        ∧ p.log.length
            = (identifyNames gw req).length * (perCompetitorKinds req).length)
    ∧ (∀ gw req e, (run_analysis gw req).outcome = Except.error e →
        e = RunError.invalidRequest
        ∨ (e = RunError.identificationFailure
            ∧ identifyNames gw req = []))
    ∧ (∀ gw req, trimStr req.target ≠ "" → identifyNames gw req ≠ [] →
        ∃ p, (run_analysis gw req).outcome = Except.ok p) := by
  refine ⟨?_, ?_, ?_⟩
  · intro gw req hf ht hn
    have hfacts :=
      (collectAll_allfail gw hf (perCompetitorKinds req)
        (identifyNames gw req)).1
    have hlen :=
      (collectAll_allfail gw hf (perCompetitorKinds req)
        (identifyNames gw req)).2
    have hlogne : (collectAll gw (perCompetitorKinds req)
        (identifyNames gw req)).log ≠ [] := by
      intro h0
      rw [h0] at hlen
      have h1 : (identifyNames gw req).length ≠ 0 := by
        intro h2
        exact hn (List.length_eq_zero.mp h2)
      have h2 : (perCompetitorKinds req).length ≠ 0 := by
        intro h3
        exact perCompetitorKinds_ne_nil req (List.length_eq_zero.mp h3)
      rcases Nat.mul_eq_zero.mp hlen.symm with h3 | h3
      · exact h1 h3
      · exact h2 h3
    refine ⟨⟨RunStatus.partialResult, identifyNames gw req,
        (collectAll gw (perCompetitorKinds req)
          (identifyNames gw req)).facts,
        (collectAll gw (perCompetitorKinds req)
          (identifyNames gw req)).log⟩, ?_, rfl, ?_, ?_⟩
    · rw [run_analysis_ok gw req ht hn]
      show Except.ok _ = Except.ok _
      rw [if_neg hlogne]
    · show List.filter _ (collectAll gw (perCompetitorKinds req)
          (identifyNames gw req)).facts = []
      rw [hfacts]
      rfl
    · exact hlen
  · intro gw req e he
    unfold run_analysis at he
    by_cases h1 : trimStr req.target = ""
    · rw [if_pos h1] at he
      exact Or.inl (Except.error.inj he.symm)
    · rw [if_neg h1] at he
      by_cases h2 : identifyNames gw req = []
      · rw [if_pos h2] at he
        exact Or.inr ⟨Except.error.inj he.symm, h2⟩
      · rw [if_neg h2] at he
        exact absurd he (by simp)
  · intro gw req ht hn
    exact ⟨_, by rw [run_analysis_ok gw req ht hn]⟩

/-- Witness for fetch_failures_degrade_gracefully at the all-failing
gateway and a full-analysis request. -/
theorem fetch_failures_degrade_gracefully_witness :
    ∃ p, (run_analysis gwAllFail reqFull).outcome = Except.ok p
      ∧ p.status = RunStatus.partialResult
      ∧ p.facts.filter (fun x => x.factField == FactField.pricing_tiers) = []
      ∧ p.log.length
          = (identifyNames gwAllFail reqFull).length
            * (perCompetitorKinds reqFull).length :=
  fetch_failures_degrade_gracefully.1 gwAllFail reqFull (fun _ => rfl)
    (by decide) (by decide)

/-- Helper: in a trace that opens with the identification step starting and
then reaching a terminal state, any prefix containing a per-competitor start
also contains that terminal identification event. -/
theorem take_ordering_helper (st : StepStatus)
    (hterm : isIdentTerminal
        (RunEvent.stepEnded StepKind.identify_competitors none st) = true)
    (rest : List RunEvent) (n : Nat)
    (hstart : ((RunEvent.stepStarted StepKind.identify_competitors none
        :: RunEvent.stepEnded StepKind.identify_competitors none st
        :: rest).take n).any isPerCompStart = true) :
    ((RunEvent.stepStarted StepKind.identify_competitors none
        :: RunEvent.stepEnded StepKind.identify_competitors none st
        :: rest).take n).any isIdentTerminal = true := by
  match n with
  | 0 => simp at hstart
  | 1 => simp [isPerCompStart] at hstart
  | (m + 2) => simp [hterm]

/-- C8: spec-modelled planner and ordering — every successful plan opens
with the identify_competitors step, and in every run trace, by the time any
per-competitor step has started, the identification step has already reached
a terminal state. -/
theorem identify_first_ordering :
    (∀ req steps, plan req = Except.ok steps →
      steps.head? = some ⟨StepKind.identify_competitors, none⟩)
    ∧ (∀ gw req n,
        (((run_analysis gw req).events.take n).any isPerCompStart = true) →
        (((run_analysis gw req).events.take n).any isIdentTerminal = true)) := by
  constructor
  · intro req steps h
    unfold plan at h
    by_cases ht : trimStr req.target = ""
    · rw [if_pos ht] at h
      exact absurd h (by simp)
    · rw [if_neg ht] at h
      injection h with h2
      rw [← h2]
      rfl
  · intro gw req n
    by_cases ht : trimStr req.target = ""
    · intro hstart
      rw [show (run_analysis gw req).events = [] from by
            unfold run_analysis
            simp [ht]] at hstart
      simp at hstart
    · by_cases hn : identifyNames gw req = []
      · intro hstart
        rw [show (run_analysis gw req).events
              = RunEvent.stepStarted StepKind.identify_competitors none
                :: RunEvent.stepEnded StepKind.identify_competitors none
                    StepStatus.failed :: [] from by
              unfold run_analysis
              simp [ht, hn, identEvents]] at hstart ⊢
        exact take_ordering_helper StepStatus.failed rfl [] n hstart
      · intro hstart
        rw [show (run_analysis gw req).events
              = RunEvent.stepStarted StepKind.identify_competitors none
                :: RunEvent.stepEnded StepKind.identify_competitors none
                    StepStatus.done
                :: (collectAll gw (perCompetitorKinds req)
                      (identifyNames gw req)).events from by
              rw [run_analysis_ok gw req ht hn]
              simp [identEvents]] at hstart ⊢
        exact take_ordering_helper StepStatus.done rfl _ n hstart

/-- Witness for identify_first_ordering: the concrete full-analysis plan and
a concrete run trace. -/
theorem identify_first_ordering_witness :
    ([⟨StepKind.identify_competitors, none⟩,
      ⟨StepKind.collect_profile, none⟩, ⟨StepKind.collect_pricing, none⟩,
      ⟨StepKind.collect_features, none⟩] : List ResearchStep).head?
        = some ⟨StepKind.identify_competitors, none⟩
    ∧ ((run_analysis gwAllFail reqFull).events.take 5).any isIdentTerminal
        = true :=
  ⟨identify_first_ordering.1 reqFull
      [⟨StepKind.identify_competitors, none⟩,
       ⟨StepKind.collect_profile, none⟩, ⟨StepKind.collect_pricing, none⟩,
       ⟨StepKind.collect_features, none⟩] rfl,
   identify_first_ordering.2 gwAllFail reqFull 5 (by decide)⟩

end CompetIntel
